import Mathlib

/-!
Verification of the background job-processing subsystem of the manga tracker:
the Redis connection layer (`lib/redis`), the queue handles (`lib/queues`),
and the worker/scheduler/shutdown entry point (`workers/index`).

Definitions are shallow embeddings of the TypeScript source.  Where the
behaviour under scrutiny lives in the BullMQ library rather than in this
repository (the worker admission control and the store-side retry loop), the
definition is modelled from the spec and carries a doc comment saying so.
-/

namespace MangaTracker

/-! ## Redis connection layer (`lib/redis`) -/

/--
Connection retry strategy passed to the ioredis client.  Direct embedding of

```
retryStrategy: (times) => {
  const delay = Math.min(times * 200, 5000);
  if (times > 20) { console.error(...); return null; }
  return delay;
}
```

`none` models `return null` (ioredis stops reconnecting); `some d` models a
reconnect after `d` milliseconds.
-/
def retryStrategy (times : Nat) : Option Nat :=
  let delay := min (times * 200) 5000
  if times > 20 then none
  else some delay

/-- Model of the shared ioredis connection state, as far as `disconnectRedis`
inspects it: the client `status` string, and whether a graceful `quit()` would
be rejected by the store (an environment fact, not a program choice). -/
structure RedisConn where
  status : String
  quitFails : Bool
deriving Repr, DecidableEq

/-- Observable steps taken by `disconnectRedis`. -/
inductive DisconnectEvent where
  | quitOk
  | errorLogged
  | forcedDisconnect
deriving Repr, DecidableEq

/-- `redis.quit()`: graceful close, flushing pending commands.  On success the
client status becomes `end`; a store-side failure rejects the promise. -/
def quit (c : RedisConn) : Except String RedisConn :=
  if c.quitFails then .error "quit failed"
  else .ok { c with status := "end" }

/-- `redis.disconnect()`: forced synchronous teardown; never throws, the
client status becomes `end`. -/
def forceDisconnect (c : RedisConn) : RedisConn :=
  { c with status := "end" }

/--
Direct embedding of `disconnectRedis` (`lib/redis`):

```
export async function disconnectRedis(): Promise<void> {
  if (redis.status === 'end') return;
  try {
    await redis.quit();
    console.log('[Redis] Disconnected');
  } catch (err) {
    console.error('[Redis] Error during disconnect:', err);
    redis.disconnect(); // Force disconnect if quit fails
  }
}
```

The `Except` layer models the returned promise: `.error` would be a rejection
propagating to the caller.  The result carries the final connection state and
the list of observable steps, in order.
-/
def disconnectRedis (c : RedisConn) : Except String (RedisConn × List DisconnectEvent) :=
  if c.status = "end" then .ok (c, [])
  else
    match quit c with
    | .ok c' => .ok (c', [.quitOk])
    | .error _ => .ok (forceDisconnect c, [.errorLogged, .forcedDisconnect])

/-! ## Queue handles (`lib/queues`) -/

/-- Backoff options of a queue's default job options. -/
structure BackoffOpts where
  kind : String
  delay : Nat
deriving Repr, DecidableEq

/-- Retention cap: a count ceiling and an age ceiling. -/
structure RetentionOpts where
  count : Nat
  age : Nat
deriving Repr, DecidableEq

/-- `defaultJobOptions` of a BullMQ queue, as configured in `lib/queues`. -/
structure JobOpts where
  attempts : Nat
  backoff : BackoffOpts
  removeOnComplete : RetentionOpts
  removeOnFail : RetentionOpts
deriving Repr, DecidableEq

/-- A producer-side queue handle: a name plus its default job options. -/
structure Queue where
  name : String
  defaultJobOptions : JobOpts
deriving Repr, DecidableEq

def CHECK_SOURCE_QUEUE : String := "check-source"
def NOTIFICATION_QUEUE : String := "notifications"

/-- Embedding of `checkSourceQueue = new Queue(CHECK_SOURCE_QUEUE, {...})`:
3 attempts, exponential backoff with 5000 ms base, retention caps. -/
def checkSourceQueue : Queue :=
  { name := CHECK_SOURCE_QUEUE
    defaultJobOptions :=
      { attempts := 3
        backoff := { kind := "exponential", delay := 5000 }
        removeOnComplete := { count := 100, age := 3600 }
        removeOnFail := { count := 500, age := 86400 } } }

/-- Embedding of `notificationQueue = new Queue(NOTIFICATION_QUEUE, {...})`:
5 attempts, exponential backoff with 1000 ms base, retention caps. -/
def notificationQueue : Queue :=
  { name := NOTIFICATION_QUEUE
    defaultJobOptions :=
      { attempts := 5
        backoff := { kind := "exponential", delay := 1000 }
        removeOnComplete := { count := 100, age := 3600 }
        removeOnFail := { count := 500, age := 86400 } } }

/-! ## Store-side retry loop (modelled from the spec) -/

/-- Job lifecycle states. -/
inductive JobState where
  | waiting
  | active
  | completed
  | failed
deriving Repr, DecidableEq

/-- Modelled from the spec: the Durable Queue Store's backoff computation
(BullMQ internals, not part of src/).  "exponential: `delay = base *
2^(attempts_made - 1)`"; a fixed policy always waits the base delay. -/
def backoffDelay (b : BackoffOpts) (attemptsMade : Nat) : Nat :=
  if b.kind = "exponential" then b.delay * 2 ^ (attemptsMade - 1)
  else b.delay

/-- Modelled from the spec: the store-side retry loop (BullMQ internals, not
part of src/).  With `remaining` invocations still allowed, run attempt
`attemptNo` (1-based); on success the job completes, on failure it is
re-queued after `backoffDelay` while further invocations remain, otherwise it
fails.  Returns the final state and the total delay accumulated between
attempts. -/
def runJobAttempts (b : BackoffOpts) (succeeds : Nat → Bool) :
    Nat → Nat → Nat → JobState × Nat
  | 0, _, acc => (.failed, acc)
  | 1, attemptNo, acc =>
      if succeeds attemptNo then (.completed, acc) else (.failed, acc)
  | remaining + 2, attemptNo, acc =>
      if succeeds attemptNo then (.completed, acc)
      else runJobAttempts b succeeds (remaining + 1) (attemptNo + 1)
             (acc + backoffDelay b attemptNo)

/-- Run a job from its first attempt under a queue's default job options. -/
def runJob (opts : JobOpts) (succeeds : Nat → Bool) : JobState × Nat :=
  runJobAttempts opts.backoff succeeds opts.attempts 1 0

/-! ## Worker configuration (`workers/index`) -/

/-- BullMQ rate limiter options: at most `max` job starts per rolling window
of `duration` milliseconds. -/
structure RateLimiter where
  max : Nat
  duration : Nat
deriving Repr, DecidableEq

/-- Worker options as passed to `new Worker(...)`. -/
structure WorkerOpts where
  concurrency : Nat
  limiter : Option RateLimiter
deriving Repr, DecidableEq

/-- A worker engine: the queue it consumes and its options. -/
structure Worker where
  queueName : String
  opts : WorkerOpts
deriving Repr, DecidableEq

/-- Embedding of `checkSourceWorker = new Worker(CHECK_SOURCE_QUEUE, ...,
{ concurrency: 5, limiter: { max: 10, duration: 1000 } })`. -/
def checkSourceWorker : Worker :=
  { queueName := CHECK_SOURCE_QUEUE
    opts := { concurrency := 5, limiter := some { max := 10, duration := 1000 } } }

/-- Embedding of `notificationWorker = new Worker(NOTIFICATION_QUEUE, ...,
{ concurrency: 10 })` — no `limiter` key at all. -/
def notificationWorker : Worker :=
  { queueName := NOTIFICATION_QUEUE
    opts := { concurrency := 10, limiter := none } }

/-! ## Worker engine admission control (modelled from the spec) -/

/-- Events observable on one worker engine, each stamped with a time in
milliseconds: a handler start or a handler completion. -/
inductive WEvent where
  | start (t : Nat) (job : Nat)
  | finish (t : Nat) (job : Nat)
deriving Repr, DecidableEq

/-- Execution state of one worker engine: the number of currently running
handler invocations, the timestamps of every past handler start (most recent
first), and the current time. -/
structure WState where
  running : Nat
  starts : List Nat
  now : Nat
deriving Repr, DecidableEq

/-- Worker engine state before any job has been claimed. -/
def initWState : WState := { running := 0, starts := [], now := 0 }

/-- Number of recorded starts falling in the rolling window of length `dur`
ending at time `t` (the half-open interval `(t - dur, t]`). -/
def startsInWindow (starts : List Nat) (t dur : Nat) : Nat :=
  (starts.filter (fun s => decide (s ≤ t) && decide (t < s + dur))).length

/-- Modelled from the spec: the worker engine's admission control (BullMQ
internals, not part of src/).  A new handler may start at time `t` only when
a concurrency slot is free and, when a rate limiter is configured, fewer than
`max` starts happened in the window of the last `duration` milliseconds. -/
def mayStart (w : WorkerOpts) (st : WState) (t : Nat) : Bool :=
  decide (st.running < w.concurrency) &&
    match w.limiter with
    | none => true
    | some l => decide (startsInWindow st.starts t l.duration < l.max)

/-- Modelled from the spec: one admissible step of a worker engine.  Time
never goes backwards; a start must pass `mayStart`; a finish releases a
concurrency slot. -/
inductive Step (w : WorkerOpts) : WState → WEvent → WState → Prop where
  | start {st : WState} {t j : Nat} :
      st.now ≤ t → mayStart w st t = true →
      Step w st (.start t j) { running := st.running + 1, starts := t :: st.starts, now := t }
  | finish {st : WState} {t j : Nat} :
      st.now ≤ t → 0 < st.running →
      Step w st (.finish t j) { running := st.running - 1, starts := st.starts, now := t }

/-- Reachability of a worker engine state by a trace of admissible steps. -/
inductive Reaches (w : WorkerOpts) : WState → List WEvent → WState → Prop where
  | nil {st : WState} : Reaches w st [] st
  | cons {st st' st'' : WState} {e : WEvent} {es : List WEvent} :
      Step w st e st' → Reaches w st' es st'' → Reaches w st (e :: es) st''

/-- The two limits a worker engine maintains: the concurrency ceiling, every
recorded start stamped no later than the current time, and — when a rate
limiter is configured — at most `max` starts in any rolling window of
`duration` milliseconds. -/
def WInv (w : WorkerOpts) (st : WState) : Prop :=
  st.running ≤ w.concurrency ∧
  (∀ s ∈ st.starts, s ≤ st.now) ∧
  (∀ l ∈ w.limiter, ∀ t, startsInWindow st.starts t l.duration ≤ l.max)

/-- A trace of `n` zero-duration handler executions, all at time 0: job `k`
starts and immediately finishes, `k = n-1, …, 0`. -/
def burstTrace : Nat → List WEvent
  | 0 => []
  | n + 1 => WEvent.start 0 n :: WEvent.finish 0 n :: burstTrace n

/-! ## Scheduler loop (`workers/index`) -/

/-- `SCHEDULER_INTERVAL = 5 * 60 * 1000` (5 minutes, in milliseconds). -/
def SCHEDULER_INTERVAL : Nat := 5 * 60 * 1000

/-- Outcome of one invocation of the scheduler's timer callback body. -/
inductive CycleResult where
  /-- `runMasterScheduler()` resolved. -/
  | ok
  /-- `runMasterScheduler()` threw; the `catch` block logged the error. -/
  | caught (msg : String)
  /-- An exception escaped the callback (impossible in the source: every
  invocation of `runMasterScheduler` is wrapped in try/catch). -/
  | crashed (msg : String)
deriving Repr, DecidableEq

/-- Direct embedding of the timer callback body (and of the initial awaited
run, which has the same shape):

```
try { await runMasterScheduler(); } catch (error) { console.error(...); }
```

An `Except.error` outcome of `runMasterScheduler` is always caught and
logged; nothing ever escapes the callback. -/
def timerCallback (outcome : Except String Unit) : CycleResult :=
  match outcome with
  | .ok _ => .ok
  | .error e => .caught e

/-- Scheduler-side process state: whether the process is still alive and
whether the repeating interval timer is armed. -/
structure SchedState where
  alive : Bool
  timerArmed : Bool
deriving Repr, DecidableEq

/-- State after `startScheduler()` ran: the initial `runMasterScheduler` call
(cycle 0) is awaited inside try/catch, then `setInterval` arms the timer.  An
exception escaping the initial run would skip the `setInterval` line (the
promise rejection is swallowed by `.catch(console.error)` at top level), so
the timer would stay unarmed — the source's inner try/catch prevents that. -/
def startSchedulerState (outcomes : Nat → Except String Unit) : SchedState :=
  match timerCallback (outcomes 0) with
  | .ok | .caught _ => { alive := true, timerArmed := true }
  | .crashed _ => { alive := true, timerArmed := false }

/-- Modelled from the spec: Node's timer mechanics.  When the process is
alive and the interval timer armed, cycle `n` runs the callback; an exception
escaping a timer callback terminates the process (and with it all future
firings), while `ok` and `caught` outcomes leave the timer armed. -/
def stepScheduler (outcomes : Nat → Except String Unit) (s : SchedState) (n : Nat) :
    SchedState :=
  if s.alive && s.timerArmed then
    match timerCallback (outcomes n) with
    | .ok | .caught _ => s
    | .crashed _ => { alive := false, timerArmed := false }
  else s

/-- Scheduler-side process state after cycles `0, 1, …, n` have been
processed: cycle 0 is the initial awaited run, cycle `k+1` the `k+1`-st
timer firing. -/
def schedulerState (outcomes : Nat → Except String Unit) : Nat → SchedState
  | 0 => startSchedulerState outcomes
  | n + 1 => stepScheduler outcomes (schedulerState outcomes n) (n + 1)

/-- Whether cycle `n` fires: the initial run always does; firing `n+1`
requires the process alive and the timer still armed after cycle `n`. -/
def cycleFires (outcomes : Nat → Except String Unit) : Nat → Bool
  | 0 => true
  | n + 1 => (schedulerState outcomes n).alive && (schedulerState outcomes n).timerArmed

/-- Time (ms since process start) at which cycle `n` runs: the initial run at
0, then one firing every `SCHEDULER_INTERVAL`. -/
def cycleTime : Nat → Nat
  | 0 => 0
  | n + 1 => (n + 1) * SCHEDULER_INTERVAL

/-! ## Shutdown coordinator (`workers/index`) -/

/-- Signal-delivery model of the worker process.  `exited` records whether
`process.exit(0)` has run; `shutdownInvocations` counts how many times the
body of `shutdown` has been entered. -/
structure SigState where
  exited : Bool
  shutdownInvocations : Nat
deriving Repr, DecidableEq

/-- Worker process state at startup. -/
def initSigState : SigState := { exited := false, shutdownInvocations := 0 }

/-- Embedding of the signal registrations

```
process.on('SIGTERM', () => shutdown('SIGTERM'));
process.on('SIGINT', () => shutdown('SIGINT'));
```

Each SIGTERM/SIGINT delivered while the process has not yet exited invokes
`shutdown` again: the source keeps no flag recording that a shutdown is
already in progress, so nothing in `shutdown`'s body (which suspends at each
`await`, letting further signals be dispatched) stops a later signal from
re-entering it. -/
def deliverSignal (s : SigState) (sig : String) : SigState :=
  if s.exited then s
  else if sig = "SIGTERM" || sig = "SIGINT" then
    { s with shutdownInvocations := s.shutdownInvocations + 1 }
  else s

/-- Actions performed by one invocation of `shutdown`, in program order. -/
inductive ShutdownAction where
  /-- `clearInterval(schedulerInterval)`. -/
  | stopSchedulerTimer
  /-- One in-flight handler invocation of worker `w` finished job `j`
  (awaited inside `worker.close()`). -/
  | handlerCompleted (w : String) (j : Nat)
  /-- `worker.close()` of worker `w` resolved: no jobs remain in flight. -/
  | workerClosed (w : String)
  /-- `disconnectRedis()` closed the store connection. -/
  | disconnectStore
  /-- `process.exit(code)`. -/
  | processExit (code : Nat)
deriving Repr, DecidableEq

/-- The events produced by `worker.close()` for a worker with the given jobs
in flight: a graceful close waits for every active handler to complete, then
resolves. -/
def closeWorkerTrace (w : String) (jobs : List Nat) : List ShutdownAction :=
  jobs.map (ShutdownAction.handlerCompleted w) ++ [ShutdownAction.workerClosed w]

/-- `l` is an interleaving of `l₁` and `l₂` (the order within each input is
kept).  `Promise.all([checkSourceWorker.close(), notificationWorker.close()])`
lets the two workers' close events interleave arbitrarily in time. -/
inductive Interleaving : List α → List α → List α → Prop where
  | nil : Interleaving [] [] []
  | left {a : α} {l₁ l₂ l : List α} :
      Interleaving l₁ l₂ l → Interleaving (a :: l₁) l₂ (a :: l)
  | right {a : α} {l₁ l₂ l : List α} :
      Interleaving l₁ l₂ l → Interleaving l₁ (a :: l₂) (a :: l)

/-- Direct embedding of one invocation of `shutdown` (given that the
scheduler timer is set): stop the scheduler timer, await both workers' close
(whose events form `closePhase`, an interleaving of the two per-worker close
traces), then `await disconnectRedis()`, then `process.exit(0)`. -/
def shutdownTrace (closePhase : List ShutdownAction) : List ShutdownAction :=
  ShutdownAction.stopSchedulerTimer ::
    closePhase ++ [ShutdownAction.disconnectStore, ShutdownAction.processExit 0]

/-! ## Helper lemmas -/

theorem length_filter_le_of_imp {α : Type} {p q : α → Bool} :
    ∀ l : List α, (∀ a ∈ l, p a = true → q a = true) →
      (l.filter p).length ≤ (l.filter q).length := by
  intro l h
  induction l with
  | nil => simp
  | cons a l ih =>
    have ha := h a (by simp)
    have ih' := ih (fun b hb hpb => h b (List.mem_cons_of_mem a hb) hpb)
    by_cases hp : p a = true
    · have hq := ha hp
      simp only [List.filter_cons, hp, hq, if_true, List.length_cons]
      omega
    · have hp' : p a = false := by revert hp; cases p a <;> simp
      cases hq : q a
      · simp only [List.filter_cons, hp', hq]
        simpa using ih'
      · simp [List.filter_cons, hp', hq]
        omega

theorem startsInWindow_cons (s₀ : Nat) (starts : List Nat) (t dur : Nat) :
    startsInWindow (s₀ :: starts) t dur =
      (if s₀ ≤ t ∧ t < s₀ + dur then 1 else 0) + startsInWindow starts t dur := by
  by_cases h : s₀ ≤ t ∧ t < s₀ + dur
  · simp [startsInWindow, List.filter_cons, h.1, h.2, Nat.add_comm]
  · rw [Classical.not_and_iff_or_not_not] at h
    rcases h with h | h
    · simp [startsInWindow, List.filter_cons, h]
    · simp only [startsInWindow, List.filter_cons]
      have : ¬ (s₀ ≤ t ∧ t < s₀ + dur) := fun hc => h hc.2
      simp [h, this]

theorem startsInWindow_le_of_le {starts : List Nat} {t τ dur : Nat}
    (hb : ∀ s ∈ starts, s ≤ t) (ht : t ≤ τ) :
    startsInWindow starts τ dur ≤ startsInWindow starts t dur := by
  refine length_filter_le_of_imp starts (fun s hs hp => ?_)
  simp only [Bool.and_eq_true, decide_eq_true_eq] at hp ⊢
  exact ⟨hb s hs, by omega⟩

theorem step_preserves_WInv {w : WorkerOpts} {st st' : WState} {e : WEvent}
    (hstep : Step w st e st') (hinv : WInv w st) : WInv w st' := by
  obtain ⟨hc, hb, hl⟩ := hinv
  cases hstep with
  | start hnow hmay =>
    rename_i t j
    simp only [mayStart, Bool.and_eq_true, decide_eq_true_eq] at hmay
    obtain ⟨hrun, hlim⟩ := hmay
    refine ⟨by simpa using hrun, ?_, ?_⟩
    · intro s hs
      rcases List.mem_cons.mp hs with rfl | hs
      · exact Nat.le_refl _
      · exact Nat.le_trans (hb s hs) hnow
    · intro l hlmem τ
      have hcount : startsInWindow st.starts t l.duration < l.max := by
        cases hopt : w.limiter with
        | none => simp [hopt] at hlmem
        | some l' =>
          rw [hopt] at hlmem hlim
          obtain rfl : l' = l := by simpa using hlmem
          simpa using hlim
      rw [startsInWindow_cons]
      by_cases hτ : t ≤ τ ∧ τ < t + l.duration
      · have hmono : startsInWindow st.starts τ l.duration ≤
            startsInWindow st.starts t l.duration := by
          refine length_filter_le_of_imp st.starts (fun s hs hp => ?_)
          simp only [Bool.and_eq_true, decide_eq_true_eq] at hp ⊢
          have hsnow := hb s hs
          constructor
          · omega
          · omega
        rw [if_pos hτ]
        omega
      · have := hl l hlmem τ
        rw [if_neg hτ]
        omega
  | finish hnow hrun =>
    refine ⟨by show st.running - 1 ≤ w.concurrency; omega, ?_, ?_⟩
    · intro s hs
      exact Nat.le_trans (hb s hs) hnow
    · intro l hlmem τ
      exact hl l hlmem τ

theorem reaches_preserves_WInv {w : WorkerOpts} {st st' : WState} {tr : List WEvent}
    (h : Reaches w st tr st') (hinv : WInv w st) : WInv w st' := by
  induction h with
  | nil => exact hinv
  | cons hstep _ ih => exact ih (step_preserves_WInv hstep hinv)

theorem initWState_WInv (w : WorkerOpts) : WInv w initWState := by
  refine ⟨Nat.zero_le _, ?_, ?_⟩
  · intro s hs
    simp [initWState] at hs
  · intro l _ t
    simp [initWState, startsInWindow]

theorem interleaving_mem {α : Type} {l₁ l₂ l : List α}
    (h : Interleaving l₁ l₂ l) : ∀ x ∈ l, x ∈ l₁ ∨ x ∈ l₂ := by
  induction h with
  | nil => intro x hx; simp at hx
  | left _ ih =>
    intro x hx
    rcases List.mem_cons.mp hx with rfl | hx
    · exact Or.inl (List.mem_cons_self _ _)
    · rcases ih x hx with h | h
      · exact Or.inl (List.mem_cons_of_mem _ h)
      · exact Or.inr h
  | right _ ih =>
    intro x hx
    rcases List.mem_cons.mp hx with rfl | hx
    · exact Or.inr (List.mem_cons_self _ _)
    · rcases ih x hx with h | h
      · exact Or.inl h
      · exact Or.inr (List.mem_cons_of_mem _ h)

theorem interleaving_mem_left {α : Type} {l₁ l₂ l : List α}
    (h : Interleaving l₁ l₂ l) : ∀ x ∈ l₁, x ∈ l := by
  induction h with
  | nil => intro x hx; simp at hx
  | left _ ih =>
    intro x hx
    rcases List.mem_cons.mp hx with rfl | hx
    · exact List.mem_cons_self _ _
    · exact List.mem_cons_of_mem _ (ih x hx)
  | right _ ih =>
    intro x hx
    exact List.mem_cons_of_mem _ (ih x hx)

theorem interleaving_mem_right {α : Type} {l₁ l₂ l : List α}
    (h : Interleaving l₁ l₂ l) : ∀ x ∈ l₂, x ∈ l := by
  induction h with
  | nil => intro x hx; simp at hx
  | left _ ih =>
    intro x hx
    exact List.mem_cons_of_mem _ (ih x hx)
  | right _ ih =>
    intro x hx
    rcases List.mem_cons.mp hx with rfl | hx
    · exact List.mem_cons_self _ _
    · exact List.mem_cons_of_mem _ (ih x hx)

theorem disconnectStore_not_mem_closeWorkerTrace (w : String) (jobs : List Nat) :
    ShutdownAction.disconnectStore ∉ closeWorkerTrace w jobs := by
  intro h
  simp only [closeWorkerTrace, List.mem_append, List.mem_map, List.mem_singleton] at h
  rcases h with ⟨j, _, hj⟩ | h
  · exact ShutdownAction.noConfusion hj
  · exact ShutdownAction.noConfusion h

theorem append_pair_split {α : Type} {a b : α} :
    ∀ {xs l₁ l₂ : List α}, a ∉ xs → a ≠ b →
      xs ++ [a, b] = l₁ ++ a :: l₂ → l₁ = xs ∧ l₂ = [b] := by
  intro xs
  induction xs with
  | nil =>
    intro l₁ l₂ _ hne heq
    cases l₁ with
    | nil =>
      simp only [List.nil_append] at heq
      injection heq with _ h2
      exact ⟨rfl, h2.symm⟩
    | cons c l₁' =>
      simp only [List.nil_append, List.cons_append] at heq
      injection heq with h1 h2
      cases l₁' with
      | nil =>
        simp only [List.nil_append] at h2
        injection h2 with h3 _
        exact absurd h3.symm hne
      | cons d l₁'' =>
        simp only [List.cons_append] at h2
        injection h2 with _ h4
        exact absurd h4 (by simp)
  | cons x xs' ih =>
    intro l₁ l₂ hnot hne heq
    cases l₁ with
    | nil =>
      simp only [List.cons_append, List.nil_append] at heq
      injection heq with h1 _
      exact absurd (h1 ▸ List.mem_cons_self x xs') (h1 ▸ hnot)
    | cons c l₁' =>
      simp only [List.cons_append] at heq
      injection heq with h1 h2
      have hnot' : a ∉ xs' := fun hmem => hnot (List.mem_cons_of_mem x hmem)
      obtain ⟨hl, hr⟩ := ih hnot' hne h2
      exact ⟨by rw [hl, h1], hr⟩

theorem schedulerState_always_live (oc : Nat → Except String Unit) :
    ∀ n, schedulerState oc n = { alive := true, timerArmed := true } := by
  intro n
  induction n with
  | zero =>
    simp only [schedulerState, startSchedulerState]
    cases h : oc 0 <;> simp [timerCallback, h]
  | succ n ih =>
    simp only [schedulerState, stepScheduler, ih]
    cases h : oc (n + 1) <;> simp [timerCallback, h]

theorem burst_reaches (n : Nat) :
    ∀ s : List Nat,
      Reaches notificationWorker.opts { running := 0, starts := s, now := 0 }
        (burstTrace n) { running := 0, starts := List.replicate n 0 ++ s, now := 0 } := by
  induction n with
  | zero =>
    intro s
    simpa [burstTrace] using
      (Reaches.nil :
        Reaches notificationWorker.opts { running := 0, starts := s, now := 0 } []
          { running := 0, starts := s, now := 0 })
  | succ n ih =>
    intro s
    rw [burstTrace, List.replicate_succ', List.append_assoc]
    refine Reaches.cons (Step.start (Nat.le_refl 0) rfl) ?_
    refine Reaches.cons (Step.finish (Nat.le_refl 0) (Nat.zero_lt_one)) ?_
    simpa using ih (0 :: s)

theorem startsInWindow_replicate_zero (n W : Nat) (hW : 1 ≤ W) :
    startsInWindow (List.replicate n 0) 0 W = n := by
  induction n with
  | zero => simp [startsInWindow]
  | succ n ih =>
    rw [List.replicate_succ, startsInWindow_cons, ih]
    have : (0 : Nat) ≤ 0 ∧ 0 < 0 + W := ⟨Nat.le_refl 0, by omega⟩
    rw [if_pos this]
    omega

/-! ## Claim theorems -/

/-- C1 (code bug): the source registers `() => shutdown(signal)` for both
SIGTERM and SIGINT with no guard recording that a shutdown is already in
progress, so a second termination signal delivered while the first shutdown
sequence is still draining (the process not yet exited) enters the body of
`shutdown` a second time — the transition out of the running state fires
twice, not exactly once. -/
theorem shutdown_transition_fires_twice :
    (deliverSignal initSigState "SIGTERM").exited = false ∧
    (deliverSignal (deliverSignal initSigState "SIGTERM") "SIGINT").shutdownInvocations = 2 := by
  decide

/-- C2 (code bug): the connection retry strategy is documented (and specified)
as exponential backoff capped at a maximum, but `Math.min(times * 200, 5000)`
grows linearly: the delays for attempts 1, 2, 3 are 200, 400, 600 ms, and
600 ≠ 2·400 although both are far below the 5000 ms cap.  The bounded
give-up is real: attempt 20 still yields a delay, attempt 21 yields none. -/
theorem retryStrategy_growth_is_linear :
    retryStrategy 1 = some 200 ∧ retryStrategy 2 = some 400 ∧
    retryStrategy 3 = some 600 ∧ (600 : Nat) ≠ 2 * 400 ∧ (600 : Nat) < 5000 ∧
    retryStrategy 20 = some 4000 ∧ retryStrategy 21 = none := by
  decide

/-- C3: one invocation of `shutdown` first stops the scheduler timer, then
closes every worker engine — awaiting all in-flight handler invocations, in
whatever order `Promise.all` interleaves the two workers' close sequences —
then disconnects the store, and finally exits with status 0; in particular
every event after the store disconnect is the exit, so no in-flight handler
completion ever follows (and every in-flight job's completion precedes) the
closing of the store connection. -/
theorem shutdown_ordering (cj nj : List Nat) (cp : List ShutdownAction)
    (h : Interleaving (closeWorkerTrace CHECK_SOURCE_QUEUE cj)
      (closeWorkerTrace NOTIFICATION_QUEUE nj) cp) :
    (shutdownTrace cp).head? = some ShutdownAction.stopSchedulerTimer ∧
    (shutdownTrace cp).getLast? = some (ShutdownAction.processExit 0) ∧
    (∀ j ∈ cj, ShutdownAction.handlerCompleted CHECK_SOURCE_QUEUE j ∈ cp) ∧
    (∀ j ∈ nj, ShutdownAction.handlerCompleted NOTIFICATION_QUEUE j ∈ cp) ∧
    (∀ l₁ l₂, shutdownTrace cp = l₁ ++ ShutdownAction.disconnectStore :: l₂ →
      l₂ = [ShutdownAction.processExit 0]) := by
  have hdisc : ShutdownAction.disconnectStore ∉ cp := by
    intro hmem
    rcases interleaving_mem h _ hmem with hm | hm
    · exact disconnectStore_not_mem_closeWorkerTrace _ _ hm
    · exact disconnectStore_not_mem_closeWorkerTrace _ _ hm
  refine ⟨rfl, ?_, ?_, ?_, ?_⟩
  · have hrw : shutdownTrace cp =
        (ShutdownAction.stopSchedulerTimer :: (cp ++ [ShutdownAction.disconnectStore])) ++
          [ShutdownAction.processExit 0] := by
      simp [shutdownTrace]
    rw [hrw, List.getLast?_concat]
  · intro j hj
    refine interleaving_mem_left h _ ?_
    simp only [closeWorkerTrace, List.mem_append, List.mem_map]
    exact Or.inl ⟨j, hj, rfl⟩
  · intro j hj
    refine interleaving_mem_right h _ ?_
    simp only [closeWorkerTrace, List.mem_append, List.mem_map]
    exact Or.inl ⟨j, hj, rfl⟩
  · intro l₁ l₂ heq
    simp only [shutdownTrace] at heq
    cases l₁ with
    | nil =>
      simp only [List.nil_append] at heq
      injection heq with h1 _
      exact ShutdownAction.noConfusion h1
    | cons c l₁' =>
      simp only [List.cons_append] at heq
      injection heq with _ h2
      exact (append_pair_split hdisc (by simp) h2).2

/-- Witness for C3: a concrete shutdown with job 7 in flight on the
check-source worker and job 9 on the notification worker, the close events
sequenced check-source first. -/
theorem shutdown_ordering_witness :
    (shutdownTrace
        [ShutdownAction.handlerCompleted CHECK_SOURCE_QUEUE 7,
         ShutdownAction.workerClosed CHECK_SOURCE_QUEUE,
         ShutdownAction.handlerCompleted NOTIFICATION_QUEUE 9,
         ShutdownAction.workerClosed NOTIFICATION_QUEUE]).head? =
      some ShutdownAction.stopSchedulerTimer ∧
    (shutdownTrace
        [ShutdownAction.handlerCompleted CHECK_SOURCE_QUEUE 7,
         ShutdownAction.workerClosed CHECK_SOURCE_QUEUE,
         ShutdownAction.handlerCompleted NOTIFICATION_QUEUE 9,
         ShutdownAction.workerClosed NOTIFICATION_QUEUE]).getLast? =
      some (ShutdownAction.processExit 0) ∧
    (∀ j ∈ [7], ShutdownAction.handlerCompleted CHECK_SOURCE_QUEUE j ∈
        [ShutdownAction.handlerCompleted CHECK_SOURCE_QUEUE 7,
         ShutdownAction.workerClosed CHECK_SOURCE_QUEUE,
         ShutdownAction.handlerCompleted NOTIFICATION_QUEUE 9,
         ShutdownAction.workerClosed NOTIFICATION_QUEUE]) ∧
    (∀ j ∈ [9], ShutdownAction.handlerCompleted NOTIFICATION_QUEUE j ∈
        [ShutdownAction.handlerCompleted CHECK_SOURCE_QUEUE 7,
         ShutdownAction.workerClosed CHECK_SOURCE_QUEUE,
         ShutdownAction.handlerCompleted NOTIFICATION_QUEUE 9,
         ShutdownAction.workerClosed NOTIFICATION_QUEUE]) ∧
    (∀ l₁ l₂,
      shutdownTrace
          [ShutdownAction.handlerCompleted CHECK_SOURCE_QUEUE 7,
           ShutdownAction.workerClosed CHECK_SOURCE_QUEUE,
           ShutdownAction.handlerCompleted NOTIFICATION_QUEUE 9,
           ShutdownAction.workerClosed NOTIFICATION_QUEUE] =
        l₁ ++ ShutdownAction.disconnectStore :: l₂ →
      l₂ = [ShutdownAction.processExit 0]) := by
  have hInt : Interleaving (closeWorkerTrace CHECK_SOURCE_QUEUE [7])
      (closeWorkerTrace NOTIFICATION_QUEUE [9])
      [ShutdownAction.handlerCompleted CHECK_SOURCE_QUEUE 7,
       ShutdownAction.workerClosed CHECK_SOURCE_QUEUE,
       ShutdownAction.handlerCompleted NOTIFICATION_QUEUE 9,
       ShutdownAction.workerClosed NOTIFICATION_QUEUE] :=
    Interleaving.left (Interleaving.left (Interleaving.right (Interleaving.right
      Interleaving.nil)))
  exact shutdown_ordering [7] [9] _ hInt

/-- C4: for the check-source worker engine (concurrency 5, limiter max 10 per
1000 ms), every state reachable by any admissible trace — any sequence of
enqueued jobs, 100 instantly-available ones included — has at most 5
concurrently executing handlers and at most 10 job starts in every rolling
1000 ms window. -/
theorem checkSourceWorker_limits (tr : List WEvent) (st : WState)
    (h : Reaches checkSourceWorker.opts initWState tr st) :
    st.running ≤ 5 ∧ ∀ t, startsInWindow st.starts t 1000 ≤ 10 := by
  have hinv := reaches_preserves_WInv h (initWState_WInv checkSourceWorker.opts)
  obtain ⟨hc, _, hl⟩ := hinv
  refine ⟨hc, fun t => ?_⟩
  exact hl { max := 10, duration := 1000 } rfl t

/-- Witness for C4: two handlers started at times 0 and 1 ms. -/
theorem checkSourceWorker_limits_witness :
    ({ running := 2, starts := [1, 0], now := 1 } : WState).running ≤ 5 ∧
    ∀ t, startsInWindow ([1, 0] : List Nat) t 1000 ≤ 10 :=
  checkSourceWorker_limits [WEvent.start 0 1, WEvent.start 1 2]
    { running := 2, starts := [1, 0], now := 1 }
    (Reaches.cons (Step.start (Nat.le_refl 0) (by decide))
      (Reaches.cons (Step.start (Nat.zero_le 1) (by decide)) Reaches.nil))

/-- C5: under the exponential policy the delay between failed attempt `i` and
attempt `i+1` is `base * 2^(i-1)`; on the notifications queue (5 attempts,
base 1000 ms) the four delays are 1000, 2000, 4000, 8000 ms, and a handler
failing attempts 1–4 and succeeding on attempt 5 accumulates 15000 ms total
delay and completes. -/
theorem notificationQueue_backoff_scenario :
    (∀ b i : Nat, backoffDelay { kind := "exponential", delay := b } i = b * 2 ^ (i - 1)) ∧
    List.map (backoffDelay notificationQueue.defaultJobOptions.backoff) [1, 2, 3, 4] =
      [1000, 2000, 4000, 8000] ∧
    runJob notificationQueue.defaultJobOptions (fun i => i == 5) =
      (JobState.completed, 15000) := by
  refine ⟨fun b i => ?_, by decide, by decide⟩
  simp [backoffDelay]

/-- C6: the production routine runs once immediately at start (cycle 0 at
time 0) and then on a fixed 5-minute timer; a `runMasterScheduler` that
throws on any cycle `n` (the initial run included) is caught and logged by
the per-cycle try/catch, and cycle `n+1` still fires at the configured
interval — no cycle failure stops future firings or kills the process. -/
theorem scheduler_cycle_failure_not_fatal (oc : Nat → Except String Unit) (n : Nat)
    (e : String) (h : oc n = .error e) :
    timerCallback (oc n) = .caught e ∧
    cycleFires oc 0 = true ∧ cycleTime 0 = 0 ∧
    cycleFires oc (n + 1) = true ∧
    cycleTime (n + 1) = (n + 1) * (5 * 60 * 1000) := by
  refine ⟨by simp [timerCallback, h], rfl, rfl, ?_, rfl⟩
  simp [cycleFires, schedulerState_always_live oc n]

/-- Witness for C6: a production routine that throws on every cycle; cycle 4
still fires after the failure of cycle 3. -/
theorem scheduler_cycle_failure_not_fatal_witness :
    timerCallback ((fun _ => Except.error "boom" : Nat → Except String Unit) 3) =
      .caught "boom" ∧
    cycleFires (fun _ => Except.error "boom") 0 = true ∧
    cycleTime 0 = 0 ∧
    cycleFires (fun _ => Except.error "boom") 4 = true ∧
    cycleTime 4 = 4 * (5 * 60 * 1000) :=
  scheduler_cycle_failure_not_fatal (fun _ => Except.error "boom") 3 "boom" rfl

/-- C7: the two queue handles differ by cost of failure: the critical
notifications queue is created with 5 attempts and exponential backoff with a
1000 ms base, the best-effort check-source queue with 3 attempts and
exponential backoff with a 5000 ms base. -/
theorem queue_default_options_differ :
    notificationQueue.defaultJobOptions.attempts = 5 ∧
    notificationQueue.defaultJobOptions.backoff =
      { kind := "exponential", delay := 1000 } ∧
    checkSourceQueue.defaultJobOptions.attempts = 3 ∧
    checkSourceQueue.defaultJobOptions.backoff =
      { kind := "exponential", delay := 5000 } := by
  refine ⟨rfl, rfl, rfl, rfl⟩

/-- C8: when the graceful `quit` is rejected on a connection that is not
already ended, `disconnectRedis` logs the error and issues the forced
`disconnect`, resolving with the connection torn down (status `end`) instead
of propagating the failure — the process is never left hung on shutdown. -/
theorem disconnect_failure_forces_disconnect (c : RedisConn)
    (hs : c.status ≠ "end") (hq : c.quitFails = true) :
    disconnectRedis c =
      .ok (forceDisconnect c,
        [DisconnectEvent.errorLogged, DisconnectEvent.forcedDisconnect]) ∧
    (forceDisconnect c).status = "end" := by
  refine ⟨?_, rfl⟩
  simp [disconnectRedis, hs, quit, hq]

/-- Witness for C8: a live connection whose quit fails. -/
theorem disconnect_failure_forces_disconnect_witness :
    (("ready" : String) ≠ "end") ∧
    (RedisConn.mk "ready" true).quitFails = true ∧
    (disconnectRedis ⟨"ready", true⟩ =
        .ok (forceDisconnect ⟨"ready", true⟩,
          [DisconnectEvent.errorLogged, DisconnectEvent.forcedDisconnect]) ∧
      (forceDisconnect ⟨"ready", true⟩).status = "end") :=
  ⟨by decide, rfl, disconnect_failure_forces_disconnect ⟨"ready", true⟩ (by decide) rfl⟩

/-- C9: `disconnectRedis` always resolves (never rejects): on a connection
whose status is already `end` it returns immediately with no quit issued and
no events, and whatever connection state it resolves with, calling it again
on that state is a no-op — idempotence after a successful (or forced)
disconnect. -/
theorem disconnectRedis_idempotent_total (c : RedisConn) :
    (∃ r, disconnectRedis c = .ok r) ∧
    (c.status = "end" → disconnectRedis c = .ok (c, [])) ∧
    (∀ c' evs, disconnectRedis c = .ok (c', evs) → disconnectRedis c' = .ok (c', [])) := by
  by_cases hs : c.status = "end"
  · refine ⟨⟨(c, []), by simp [disconnectRedis, hs]⟩, fun _ => by simp [disconnectRedis, hs], ?_⟩
    intro c' evs hok
    simp only [disconnectRedis, hs, if_true, Except.ok.injEq, Prod.mk.injEq] at hok
    obtain ⟨h1, _⟩ := hok
    subst h1
    simp [disconnectRedis, hs]
  · by_cases hq : c.quitFails
    · refine ⟨⟨(forceDisconnect c, [.errorLogged, .forcedDisconnect]),
        by simp [disconnectRedis, hs, quit, hq]⟩, fun hend => absurd hend hs, ?_⟩
      intro c' evs hok
      simp only [disconnectRedis, hs, if_false, quit, hq, if_true, Except.ok.injEq,
        Prod.mk.injEq] at hok
      obtain ⟨rfl, _⟩ := hok
      simp [disconnectRedis, forceDisconnect]
    · have hq' : c.quitFails = false := by revert hq; cases c.quitFails <;> simp
      refine ⟨⟨({ c with status := "end" }, [.quitOk]),
        by simp [disconnectRedis, hs, quit, hq']⟩, fun hend => absurd hend hs, ?_⟩
      intro c' evs hok
      simp only [disconnectRedis, hs, if_false, quit, hq', Except.ok.injEq,
        Prod.mk.injEq] at hok
      obtain ⟨rfl, _⟩ := hok
      simp [disconnectRedis]

/-- Witness for C9: a live connection with a working quit, and the ended
connection it resolves to. -/
theorem disconnectRedis_idempotent_total_witness :
    (∃ r, disconnectRedis ⟨"ready", false⟩ = .ok r) ∧
    ((RedisConn.mk "ready" false).status = "end" →
      disconnectRedis ⟨"ready", false⟩ = .ok (⟨"ready", false⟩, [])) ∧
    (∀ c' evs, disconnectRedis ⟨"ready", false⟩ = .ok (c', evs) →
      disconnectRedis c' = .ok (c', [])) :=
  disconnectRedis_idempotent_total ⟨"ready", false⟩

/-- C10: the notification worker engine is created with concurrency 10 and no
limiter key at all (only the check-source worker is rate limited), and with
no limiter its job starts are bounded by no per-window ceiling: for every
window duration W ≥ 1 ms and every bound R there is an admissible burst trace
whose starts in the window of length W ending at time 0 exceed R. -/
theorem notificationWorker_no_rate_limit :
    notificationWorker.opts.concurrency = 10 ∧
    notificationWorker.opts.limiter = none ∧
    checkSourceWorker.opts.limiter = some { max := 10, duration := 1000 } ∧
    (∀ W R : Nat, 1 ≤ W →
      ∃ st : WState,
        Reaches notificationWorker.opts initWState (burstTrace (R + 1)) st ∧
        R < startsInWindow st.starts 0 W) := by
  refine ⟨rfl, rfl, rfl, fun W R hW => ?_⟩
  refine ⟨{ running := 0, starts := List.replicate (R + 1) 0, now := 0 }, ?_, ?_⟩
  · simpa [initWState] using burst_reaches (R + 1) []
  · rw [startsInWindow_replicate_zero _ _ hW]
    omega

/-- Witness for C10: 101 starts within the 1000 ms window ending at time 0,
far above the 100-job bound. -/
theorem notificationWorker_no_rate_limit_witness :
    (1 : Nat) ≤ 1000 ∧
    ∃ st : WState,
      Reaches notificationWorker.opts initWState (burstTrace (100 + 1)) st ∧
      100 < startsInWindow st.starts 0 1000 :=
  ⟨by decide, notificationWorker_no_rate_limit.2.2.2 1000 100 (by decide)⟩

end MangaTracker
